import Mathlib

/-!
Verification of the mammography analysis pipeline (analyser.py, tools.py,
config.py) against its natural-language specification.

Shallow embedding conventions:
- a binary image ("mask") is a row-major grid `List (List Nat)` of byte values;
- Python / numpy floating point arithmetic is modelled over `Rat`;
- numpy reductions (`np.clip`, `np.argmax`, `min`, `max`) are embedded as the
  corresponding exact list operations;
- external OpenCV routines whose output is consumed by the code under
  verification (connected-component labelling, contour extraction, decoded
  image buffers) are passed in as explicit data, and the lines of analyser.py
  and tools.py that consume them are translated directly;
- fallible operations (file decoding, file writes) are modelled with `Except`,
  mirroring Python exceptions.
-/

/-- A single-channel image buffer: rows of byte values (analyser.py masks). -/
abbrev Mask := List (List ℕ)

/-- A 3-channel (B, G, R) image buffer (tools.py `load_image_any` output). -/
abbrev BGR := List (List (ℕ × ℕ × ℕ))

/-- Number of rows of a grid (`mask.shape[0]`). -/
def gridRows (m : Mask) : ℕ := m.length

/-- Number of columns of a (rectangular) grid (`mask.shape[1]`). -/
def gridCols (m : Mask) : ℕ := (m.headD []).length

/-- Pixel access with out-of-range default 0. -/
def gridGet (m : Mask) (y x : ℕ) : ℕ := (m.getD y []).getD x 0

/-- Row-major flattening of a grid. -/
def flatMask (m : Mask) : List ℕ := m.join

/-- `mask.size`: total number of pixels. -/
def maskSize (m : Mask) : ℕ := (m.map List.length).sum

/-- `np.count_nonzero(mask)`. -/
def countNonzero (m : Mask) : ℕ := (m.map (fun r => (r.filter (fun v => v != 0)).length)).sum

/-- `np.clip(x, lo, hi)` = `np.minimum(np.maximum(x, lo), hi)`. -/
def np_clip (x lo hi : ℚ) : ℚ := min (max x lo) hi

/-- `np.min` over a flattened nonempty array (0 on the empty list; the code
only applies it to nonempty buffers, where numpy would raise otherwise). -/
def npMinNat : List ℕ → ℕ
  | [] => 0
  | a :: l => l.foldr min a

/-- `np.max` over a flattened array (0 on the empty list). -/
def npMaxNat (l : List ℕ) : ℕ := l.foldr max 0

/-- `np.argmax`: index of the first occurrence of the maximum (0 on the
empty list, as a total stand-in; numpy raises there and the code never hits
that case). -/
def np_argmax : List ℕ → ℕ
  | [] => 0
  | x :: xs =>
    let r := np_argmax xs
    if xs.getD r 0 > x then r + 1 else 0

/-- Python `round` to an integer: round half to even (banker rounding). -/
def round_half_even (x : ℚ) : ℤ :=
  let f := ⌊x⌋
  let frac := x - (f : ℚ)
  if frac < 1/2 then f
  else if 1/2 < frac then f + 1
  else if f % 2 = 0 then f else f + 1

/-- Python `round(x, 1)`. -/
def py_round1 (x : ℚ) : ℚ := (round_half_even (x * 10) : ℚ) / 10

/-! ### Configuration constants (config.py) -/

/-- config.py `MIN_SUSPICIOUS_RATIO = 0.01`. -/
def minSuspiciousRatio : ℚ := 1/100

/-- config.py `MAX_SUSPICIOUS_RATIO = 0.80`. -/
def maxSuspiciousRatio : ℚ := 4/5

/-- config.py `MIN_COMPONENT_AREA = 250`. -/
def MIN_COMPONENT_AREA : ℕ := 250

/-- config.py `REPORTS_DIR` (relative to the project root). -/
def REPORTS_DIR : String := "output/reports"

/-- config.py `ANNOTATED_DIR` (relative to the project root). -/
def ANNOTATED_DIR : String := "output/annotated"

/-! ### Quantifier (analyser.py lines 107-130) -/

/-- analyser.py `ratio_percent_from_mask` (lines 107-114). -/
def ratio_percent_from_mask (mask : Mask) : ℚ :=
  let total := maskSize mask
  let suspicious := countNonzero mask
  if total = 0 then 0
  else
    py_round1 (np_clip ((suspicious : ℚ) / (total : ℚ)) minSuspiciousRatio maxSuspiciousRatio * 100)

/-- analyser.py `density_class_from_ratio` (lines 117-124). -/
def density_class_from_ratio (ratio_percent : ℚ) : String :=
  if ratio_percent < 5 then "A – Almost entirely fatty"
  else if ratio_percent < 15 then "B – Scattered fibroglandular"
  else if ratio_percent < 35 then "C – Heterogeneously dense"
  else "D – Extremely dense"

/-! ### Helper lemmas -/

lemma np_clip_bounds (x lo hi : ℚ) (h : lo ≤ hi) :
    lo ≤ np_clip x lo hi ∧ np_clip x lo hi ≤ hi := by
  unfold np_clip
  constructor
  · exact le_min (le_max_right x lo) h
  · exact min_le_right _ _

lemma np_clip_of_le (x lo hi : ℚ) (hx : x ≤ lo) (h : lo ≤ hi) :
    np_clip x lo hi = lo := by
  unfold np_clip
  rw [max_eq_right hx, min_eq_left h]

lemma floor_le_round_half_even (x : ℚ) : ⌊x⌋ ≤ round_half_even x := by
  unfold round_half_even
  dsimp only
  split
  · exact le_refl _
  · split
    · omega
    · split <;> omega

lemma round_half_even_le_ceil (x : ℚ) : round_half_even x ≤ ⌈x⌉ := by
  unfold round_half_even
  dsimp only
  have hfc : ⌊x⌋ ≤ ⌈x⌉ := Int.floor_le_ceil x
  have hkey : (1:ℚ)/2 ≤ x - (⌊x⌋ : ℚ) → ⌊x⌋ + 1 ≤ ⌈x⌉ := by
    intro hgt
    have hx : (⌊x⌋ : ℚ) < x := by
      have := Int.floor_le x
      nlinarith
    have : ⌊x⌋ < ⌈x⌉ := Int.lt_ceil.mpr hx
    omega
  split
  · exact hfc
  · split
    · exact hkey (by linarith)
    · split
      · exact hfc
      · exact hkey (by linarith)

lemma py_round1_bounds (x lo hi : ℚ) (h1 : lo ≤ x) (h2 : x ≤ hi) :
    lo - 1 < py_round1 x ∧ py_round1 x < hi + 1 := by
  unfold py_round1
  have hf : ⌊x * 10⌋ ≤ round_half_even (x * 10) := floor_le_round_half_even _
  have hc : round_half_even (x * 10) ≤ ⌈x * 10⌉ := round_half_even_le_ceil _
  have hfl : x * 10 - 1 < (⌊x * 10⌋ : ℚ) := by
    have := Int.sub_one_lt_floor (x * 10)
    linarith
  have hcl : (⌈x * 10⌉ : ℚ) < x * 10 + 1 := Int.ceil_lt_add_one _
  have h3 : x * 10 - 1 < (round_half_even (x * 10) : ℚ) := by
    calc x * 10 - 1 < (⌊x * 10⌋ : ℚ) := hfl
    _ ≤ (round_half_even (x * 10) : ℚ) := by exact_mod_cast hf
  have h4 : (round_half_even (x * 10) : ℚ) < x * 10 + 1 := by
    calc (round_half_even (x * 10) : ℚ) ≤ (⌈x * 10⌉ : ℚ) := by exact_mod_cast hc
    _ < x * 10 + 1 := hcl
  constructor <;> [nlinarith; nlinarith]

lemma py_round1_int_bounds (x : ℚ) (a b : ℤ) (h1 : (a : ℚ) ≤ x) (h2 : x ≤ (b : ℚ)) :
    (a : ℚ) ≤ py_round1 x ∧ py_round1 x ≤ (b : ℚ) := by
  unfold py_round1
  have hf : (10 * a : ℤ) ≤ ⌊x * 10⌋ := by
    rw [Int.le_floor]
    push_cast
    linarith
  have hc : ⌈x * 10⌉ ≤ (10 * b : ℤ) := by
    rw [Int.ceil_le]
    push_cast
    linarith
  have h3 : (10 * a : ℤ) ≤ round_half_even (x * 10) :=
    le_trans hf (floor_le_round_half_even _)
  have h4 : round_half_even (x * 10) ≤ (10 * b : ℤ) :=
    le_trans (round_half_even_le_ceil _) hc
  constructor
  · rw [le_div_iff (by norm_num : (0:ℚ) < 10)]
    calc (a : ℚ) * 10 = ((10 * a : ℤ) : ℚ) := by push_cast; ring
    _ ≤ _ := by exact_mod_cast h3
  · rw [div_le_iff (by norm_num : (0:ℚ) < 10)]
    calc ((round_half_even (x * 10) : ℤ) : ℚ) ≤ ((10 * b : ℤ) : ℚ) := by exact_mod_cast h4
    _ = (b : ℚ) * 10 := by push_cast; ring

lemma countNonzero_le_maskSize (m : Mask) : countNonzero m ≤ maskSize m := by
  unfold countNonzero maskSize
  induction m with
  | nil => simp
  | cons r rs ih =>
    simp only [List.map_cons, List.sum_cons]
    exact Nat.add_le_add (List.length_filter_le _ _) ih

/-- C1 (amended): for every mask with at least one pixel, the returned ratio
percentage lies in [1, 80], and an all-zero mask yields the clamp floor 1.
(The zero-size-mask case is excluded: there the code returns 0.) -/
theorem ratio_percent_bounds (mask : Mask) (h : maskSize mask ≠ 0) :
    (1 ≤ ratio_percent_from_mask mask ∧ ratio_percent_from_mask mask ≤ 80) ∧
    (countNonzero mask = 0 → ratio_percent_from_mask mask = 1) := by
  have htot : 0 < maskSize mask := Nat.pos_of_ne_zero h
  have htotQ : (0 : ℚ) < (maskSize mask : ℚ) := by exact_mod_cast htot
  constructor
  · unfold ratio_percent_from_mask
    simp only [h, if_false]
    set r : ℚ := (countNonzero mask : ℚ) / (maskSize mask : ℚ) with hr
    set c : ℚ := np_clip r minSuspiciousRatio maxSuspiciousRatio with hcdef
    have hclip := np_clip_bounds r minSuspiciousRatio maxSuspiciousRatio
      (by norm_num [minSuspiciousRatio, maxSuspiciousRatio])
    rw [← hcdef] at hclip
    have hc1 : (1 : ℚ)/100 ≤ c := by
      have := hclip.1
      rwa [minSuspiciousRatio] at this
    have hc2 : c ≤ 4/5 := by
      have := hclip.2
      rwa [maxSuspiciousRatio] at this
    have hlo : (1 : ℚ) ≤ c * 100 := by nlinarith
    have hhi : c * 100 ≤ 80 := by nlinarith
    have := py_round1_int_bounds (c * 100) 1 80
      (by exact_mod_cast hlo) (by exact_mod_cast hhi)
    exact_mod_cast this
  · intro hz
    unfold ratio_percent_from_mask
    simp only [h, if_false, hz]
    have hr0 : ((0 : ℕ) : ℚ) / (maskSize mask : ℚ) = 0 := by simp
    rw [hr0, np_clip_of_le 0 minSuspiciousRatio maxSuspiciousRatio
      (by norm_num [minSuspiciousRatio]) (by norm_num [minSuspiciousRatio, maxSuspiciousRatio])]
    norm_num [minSuspiciousRatio, py_round1, round_half_even]

/-- Witness for `ratio_percent_bounds` at the all-zero single-pixel mask. -/
theorem ratio_percent_bounds_witness :
    (1 ≤ ratio_percent_from_mask [[0]] ∧ ratio_percent_from_mask [[0]] ≤ 80) ∧
    ratio_percent_from_mask [[0]] = 1 := by
  have h := ratio_percent_bounds [[0]] (by decide)
  exact ⟨h.1, h.2 (by decide)⟩

/-- C1 counterexample: on a mask with zero total pixels the code returns 0,
not the clamp floor 1, so the claimed bound fails there. -/
theorem ratio_percent_zero_size_cex :
    ratio_percent_from_mask [] = 0 ∧ ¬ (1 : ℚ) ≤ ratio_percent_from_mask [] := by
  constructor
  · rfl
  · intro hcontra
    have : ratio_percent_from_mask [] = 0 := rfl
    rw [this] at hcontra
    norm_num at hcontra

/-- C2: the density class is a four-bucket step function of the ratio with
half-open lower boundaries; 5, 15 and 35 map to B, C and D respectively. -/
theorem density_class_steps :
    (∀ r : ℚ, r < 5 → density_class_from_ratio r = "A – Almost entirely fatty") ∧
    (∀ r : ℚ, 5 ≤ r → r < 15 → density_class_from_ratio r = "B – Scattered fibroglandular") ∧
    (∀ r : ℚ, 15 ≤ r → r < 35 → density_class_from_ratio r = "C – Heterogeneously dense") ∧
    (∀ r : ℚ, 35 ≤ r → density_class_from_ratio r = "D – Extremely dense") ∧
    density_class_from_ratio 5 = "B – Scattered fibroglandular" ∧
    density_class_from_ratio 15 = "C – Heterogeneously dense" ∧
    density_class_from_ratio 35 = "D – Extremely dense" := by
  refine ⟨?_, ?_, ?_, ?_, ?_, ?_, ?_⟩
  · intro r hr
    simp [density_class_from_ratio, hr]
  · intro r h1 h2
    simp [density_class_from_ratio, not_lt.mpr h1, h2]
  · intro r h1 h2
    have : ¬ r < 5 := by linarith
    simp [density_class_from_ratio, this, not_lt.mpr h1, h2]
  · intro r h1
    have h5 : ¬ r < 5 := by linarith
    have h15 : ¬ r < 15 := by linarith
    simp [density_class_from_ratio, h5, h15, not_lt.mpr h1]
  · decide
  · decide
  · decide

/-- Witness for `density_class_steps` at concrete ratios. -/
theorem density_class_steps_witness :
    density_class_from_ratio 3 = "A – Almost entirely fatty" ∧
    density_class_from_ratio 20 = "C – Heterogeneously dense" := by
  exact ⟨density_class_steps.1 3 (by norm_num),
         density_class_steps.2.2.1 20 (by norm_num) (by norm_num)⟩

/-! ### Dominant-region selector (analyser.py lines 93-101)

`cv2.connectedComponentsWithStats` is an external routine; its output is
passed in as explicit data: `num` is the label count including the
background label 0, `labels` assigns to every pixel its component label in
scan order, and `areas` is the column `stats[1:, cv2.CC_STAT_AREA]`, i.e.
the pixel areas of the foreground components with labels 1, 2, ... in
order. -/

/-- Output of `cv2.connectedComponentsWithStats` as consumed by the code. -/
structure CCData where
  num : ℕ
  labels : Mask
  areas : List ℕ
deriving Repr, DecidableEq

/-- analyser.py `largest_component` (lines 93-101): `areas = stats[1:, AREA]`,
`idx = 1 + int(np.argmax(areas))`, output has 255 at pixels labelled `idx`. -/
def largest_component (mask : Mask) (cc : CCData) : Mask :=
  if cc.num ≤ 2 then mask
  else
    let idx := 1 + np_argmax cc.areas
    cc.labels.map (fun row => row.map (fun l => if l = idx then 255 else 0))

lemma np_argmax_max (l : List ℕ) : ∀ j, j < l.length → l.getD j 0 ≤ l.getD (np_argmax l) 0 := by
  induction l with
  | nil => intro j hj; simp at hj
  | cons x xs ih =>
    intro j hj
    unfold np_argmax
    dsimp only
    split
    · rename_i hgt
      rw [List.getD_cons_succ]
      cases j with
      | zero => exact le_of_lt (by simpa using hgt)
      | succ k =>
        rw [List.getD_cons_succ]
        exact ih k (by simpa using hj)
    · rename_i hle
      rw [List.getD_cons_zero]
      cases j with
      | zero => simp
      | succ k =>
        rw [List.getD_cons_succ]
        have h1 := ih k (by simpa using hj)
        have h2 : xs.getD (np_argmax xs) 0 ≤ x := by
          by_contra hc
          exact hle (by omega)
        omega

lemma np_argmax_first (l : List ℕ) : ∀ j, j < np_argmax l → l.getD j 0 < l.getD (np_argmax l) 0 := by
  induction l with
  | nil => intro j hj; simp [np_argmax] at hj
  | cons x xs ih =>
    intro j hj
    unfold np_argmax at hj ⊢
    dsimp only at hj ⊢
    split
    · rename_i hgt
      rw [List.getD_cons_succ]
      cases j with
      | zero => simpa using hgt
      | succ k =>
        rw [List.getD_cons_succ]
        rw [if_pos hgt] at hj
        exact ih k (by omega)
    · rename_i hle
      rw [if_neg hle] at hj
      omega

lemma np_argmax_lt_length (l : List ℕ) (h : l ≠ []) : np_argmax l < l.length := by
  induction l with
  | nil => exact absurd rfl h
  | cons x xs ih =>
    unfold np_argmax
    dsimp only
    split
    · rename_i hgt
      have hxs : xs ≠ [] := by
        intro hnil
        rw [hnil] at hgt
        simp at hgt
      have := ih hxs
      simp only [List.length_cons]
      omega
    · simp

lemma gridGet_mapmap (g : Mask) (f : ℕ → ℕ) (hf : f 0 = 0) (y x : ℕ) :
    gridGet (g.map (List.map f)) y x = f (gridGet g y x) := by
  unfold gridGet
  simp only [List.getD_eq_getElem?_getD, List.getElem?_map]
  cases hrow : g[y]? with
  | none => simp [hf]
  | some row =>
    simp only [Option.map_some', Option.getD_some, List.getElem?_map]
    cases hv : row[x]? with
    | none => simp [hf]
    | some v => simp

/-- C4: `largest_component` returns the input unchanged when there are zero
or one foreground components (`num <= 2`); otherwise it returns the mask that
is 255 exactly on the pixels of component `1 + argmax(areas)`, where that
component has maximal pixel area and ties are broken by the lowest
(first-encountered, scan-order) label index. -/
theorem largest_component_spec (mask : Mask) (cc : CCData)
    (hlen : cc.areas.length + 1 = cc.num) :
    (cc.num ≤ 2 → largest_component mask cc = mask) ∧
    (2 < cc.num →
      np_argmax cc.areas < cc.areas.length ∧
      (∀ y x, gridGet (largest_component mask cc) y x =
        if gridGet cc.labels y x = 1 + np_argmax cc.areas then 255 else 0) ∧
      (∀ j, j < cc.areas.length →
        cc.areas.getD j 0 ≤ cc.areas.getD (np_argmax cc.areas) 0) ∧
      (∀ j, j < np_argmax cc.areas →
        cc.areas.getD j 0 < cc.areas.getD (np_argmax cc.areas) 0)) := by
  constructor
  · intro h2
    unfold largest_component
    rw [if_pos h2]
  · intro h2
    have hne : cc.areas ≠ [] := by
      intro hnil
      rw [hnil] at hlen
      simp at hlen
      omega
    refine ⟨np_argmax_lt_length _ hne, ?_, np_argmax_max _, np_argmax_first _⟩
    intro y x
    unfold largest_component
    rw [if_neg (by omega)]
    exact gridGet_mapmap cc.labels _
      (by rw [if_neg (show ¬(0 = 1 + np_argmax cc.areas) by omega)]) y x

/-- Witness for `largest_component_spec` on a concrete two-component labelling. -/
theorem largest_component_spec_witness :
    gridGet (largest_component [[255, 255]] (CCData.mk 3 [[1, 2]] [3, 5])) 0 0 = 0 ∧
    gridGet (largest_component [[255, 255]] (CCData.mk 3 [[1, 2]] [3, 5])) 0 1 = 255 ∧
    np_argmax [3, 5] < 2 := by
  have h := (largest_component_spec [[255, 255]] (CCData.mk 3 [[1, 2]] [3, 5]) (by decide)).2
    (by decide)
  refine ⟨?_, ?_, h.1⟩
  · rw [h.2.1 0 0]; decide
  · rw [h.2.1 0 1]; decide

/-! ### Annotator bounding boxes (analyser.py lines 160-165, 193, 200)

`cv2.findContours` / `cv2.contourArea` / `cv2.resize` are external; they are
abstracted at the level of component areas, in the way most favourable to the
claim: the nearest-neighbour upscale is assumed to keep one external contour
per connected component and `contourArea` is identified with the component
pixel area. `annotate_box_areas` translates the filter of lines 161-163
(skip a contour when its area is below `MIN_COMPONENT_AREA`);
`surviving_component_areas` translates the component filter of
`segment_suspicious` (lines 87-89, keep area >= `MIN_COMPONENT_AREA`);
`analyze_box_areas` translates the composition in `analyze_image`
(lines 193 and 200): the annotator receives `mask_main`, the output of
`largest_component`, which keeps only the largest surviving component when
two or more survive. -/

/-- Areas of the components kept by `segment_suspicious` (lines 87-89). -/
def surviving_component_areas (areas : List ℕ) : List ℕ :=
  areas.filter (fun a => decide (MIN_COMPONENT_AREA ≤ a))

/-- Contour areas that receive a bounding rectangle in `annotate_image`
(lines 161-165): a contour is skipped iff its area is `< MIN_COMPONENT_AREA`. -/
def annotate_box_areas (contour_areas : List ℕ) : List ℕ :=
  contour_areas.filter (fun a => !decide (a < MIN_COMPONENT_AREA))

/-- Area of the component selected by `largest_component` (first maximum). -/
def dominant_area (surv : List ℕ) : ℕ := surv.getD (np_argmax surv) 0

/-- Areas of the components that receive a bounding rectangle in one
`analyze_image` run, as a function of the areas of the cleaned-mask
components: the annotator is called on `mask_main` (line 200), which is the
full mask when at most one component survives and the single largest
component otherwise (lines 93-101, 193). -/
def analyze_box_areas (component_areas : List ℕ) : List ℕ :=
  if (surviving_component_areas component_areas).length ≤ 1 then
    annotate_box_areas (surviving_component_areas component_areas)
  else
    annotate_box_areas [dominant_area (surviving_component_areas component_areas)]

lemma annotate_box_areas_all_ge (l : List ℕ) (h : ∀ a ∈ l, MIN_COMPONENT_AREA ≤ a) :
    annotate_box_areas l = l := by
  induction l with
  | nil => rfl
  | cons a t ih =>
    have ha := h a (List.mem_cons_self a t)
    unfold annotate_box_areas at ih ⊢
    simp only [List.filter_cons]
    rw [decide_eq_false (by omega)]
    simp only [Bool.not_false, if_pos]
    rw [ih (fun b hb => h b (List.mem_cons_of_mem a hb))]

/-- C5 counterexample: with two surviving components of area 250 each, both
are counted in the ratio but only one bounding box is drawn, so it is false
that exactly the components counted in the ratio receive bounding boxes. -/
theorem annotate_coverage_cex :
    (analyze_box_areas [250, 250]).length = 1 ∧
    (surviving_component_areas [250, 250]).length = 2 := by
  decide

/-- C5 (amended): every drawn bounding box passes the same
`MIN_COMPONENT_AREA` threshold used in segmentation, but at most one box is
drawn per image: when two or more components survive, only the largest
surviving component (the dominant mask) is boxed, and the other components
counted in the ratio receive no box. -/
theorem annotate_box_spec (comps : List ℕ) :
    (∀ a ∈ analyze_box_areas comps, MIN_COMPONENT_AREA ≤ a) ∧
    (analyze_box_areas comps).length = min (surviving_component_areas comps).length 1 ∧
    (2 ≤ (surviving_component_areas comps).length →
      analyze_box_areas comps = [dominant_area (surviving_component_areas comps)] ∧
      (∀ j, j < (surviving_component_areas comps).length →
        (surviving_component_areas comps).getD j 0 ≤
          dominant_area (surviving_component_areas comps))) := by
  have hmem : ∀ a ∈ surviving_component_areas comps, MIN_COMPONENT_AREA ≤ a := by
    intro a ha
    unfold surviving_component_areas at ha
    rw [List.mem_filter] at ha
    exact of_decide_eq_true ha.2
  have hdom : surviving_component_areas comps ≠ [] →
      dominant_area (surviving_component_areas comps) ∈ surviving_component_areas comps := by
    intro hne
    have hlt := np_argmax_lt_length _ hne
    unfold dominant_area
    rw [List.getD_eq_getElem _ 0 hlt]
    exact List.getElem_mem hlt
  have hdomge : surviving_component_areas comps ≠ [] →
      MIN_COMPONENT_AREA ≤ dominant_area (surviving_component_areas comps) :=
    fun hne => hmem _ (hdom hne)
  refine ⟨?_, ?_, ?_⟩
  · intro a ha
    unfold analyze_box_areas at ha
    split at ha
    · unfold annotate_box_areas at ha
      rw [List.mem_filter] at ha
      exact hmem a ha.1
    · rename_i hgt
      unfold annotate_box_areas at ha
      rw [List.mem_filter, List.mem_singleton] at ha
      rw [ha.1]
      refine hdomge ?_
      intro hnil
      rw [hnil] at hgt
      simp at hgt
  · unfold analyze_box_areas
    split
    · rename_i hle
      rw [annotate_box_areas_all_ge _ hmem]
      omega
    · rename_i hgt
      have hne : surviving_component_areas comps ≠ [] := by
        intro hnil
        rw [hnil] at hgt
        simp at hgt
      rw [annotate_box_areas_all_ge [dominant_area (surviving_component_areas comps)]
        (by intro b hb; rw [List.mem_singleton] at hb; rw [hb]; exact hdomge hne)]
      simp only [List.length_singleton]
      omega
  · intro hlen
    have hne : surviving_component_areas comps ≠ [] := by
      intro hnil
      rw [hnil] at hlen
      simp at hlen
    constructor
    · unfold analyze_box_areas
      rw [if_neg (by omega)]
      exact annotate_box_areas_all_ge [dominant_area (surviving_component_areas comps)]
        (by intro b hb; rw [List.mem_singleton] at hb; rw [hb]; exact hdomge hne)
    · intro j hj
      unfold dominant_area
      exact np_argmax_max _ j hj

/-- Witness for `annotate_box_spec` on a concrete three-component input. -/
theorem annotate_box_spec_witness :
    analyze_box_areas [250, 300, 250] = [300] ∧
    (surviving_component_areas [250, 300, 250]).getD 0 0 ≤
      dominant_area (surviving_component_areas [250, 300, 250]) := by
  have h := (annotate_box_spec [250, 300, 250]).2.2 (by decide)
  refine ⟨?_, h.2 0 (by decide)⟩
  rw [h.1]
  decide

/-! ### Localizer (analyser.py lines 133-143)

`cv2.moments(mask, binaryImage=True)` yields the binary image moments:
`m00` is the number of nonzero pixels, `m10` sums the column index x and
`m01` the row index y over the nonzero pixels. Python `int()` on the
nonnegative quotients is floor division. -/

/-- Binary moment `m10`: sum of x (column index) over nonzero pixels. -/
def moment_m10 (mask : Mask) : ℕ :=
  (mask.map (fun row => ((row.enum.filter (fun p => p.2 != 0)).map (fun p => p.1)).sum)).sum

/-- Binary moment `m01`: sum of y (row index) over nonzero pixels. -/
def moment_m01 (mask : Mask) : ℕ :=
  (mask.enum.map (fun p => p.1 * (p.2.filter (fun v => v != 0)).length)).sum

/-- analyser.py `centroid_and_quadrant` (lines 133-143). Returns the label
and the centroid `(cx, cy)`; binary moment `m00` equals `countNonzero`. -/
def centroid_and_quadrant (mask : Mask) : String × ℕ × ℕ :=
  let h := gridRows mask
  let w := gridCols mask
  let c : ℕ × ℕ :=
    if countNonzero mask = 0 then (w / 2, h / 2)
    else (moment_m10 mask / countNonzero mask, moment_m01 mask / countNonzero mask)
  let vertical := if (c.2 : ℚ) < (h : ℚ) / 2 then "upper" else "lower"
  let horizontal := if (c.1 : ℚ) < (w : ℚ) / 2 then "inner" else "outer"
  (vertical ++ "-" ++ horizontal ++ " quadrant", c)

lemma half_lt_iff_nat (c n : ℕ) : ((c : ℚ) < (n : ℚ) / 2) ↔ 2 * c < n := by
  rw [lt_div_iff₀ (by norm_num : (0:ℚ) < 2)]
  constructor
  · intro h
    by_contra hc
    push_neg at hc
    have : (n : ℚ) ≤ ((2 * c : ℕ) : ℚ) := by exact_mod_cast hc
    push_cast at this
    linarith
  · intro h
    have : ((2 * c : ℕ) : ℚ) < (n : ℚ) := by exact_mod_cast h
    push_cast at this
    linarith

/-- C6: the centroid is the binary first-moment centroid with floor division;
an empty mask (zero total mass) falls back to the geometric centre
`(w / 2, h / 2)` instead of failing; the label is
`"{vertical}-{horizontal} quadrant"` with `vertical = "upper"` iff
`cy < height / 2` (i.e. `2 * cy < height`) and `horizontal = "inner"` iff
`cx < width / 2`. -/
theorem centroid_and_quadrant_spec (mask : Mask) :
    (countNonzero mask = 0 →
      (centroid_and_quadrant mask).2 = (gridCols mask / 2, gridRows mask / 2)) ∧
    (countNonzero mask ≠ 0 →
      (centroid_and_quadrant mask).2 =
        (moment_m10 mask / countNonzero mask, moment_m01 mask / countNonzero mask)) ∧
    (centroid_and_quadrant mask).1 =
      (if 2 * (centroid_and_quadrant mask).2.2 < gridRows mask then "upper" else "lower") ++
      "-" ++
      (if 2 * (centroid_and_quadrant mask).2.1 < gridCols mask then "inner" else "outer") ++
      " quadrant" := by
  refine ⟨?_, ?_, ?_⟩
  · intro h0
    unfold centroid_and_quadrant
    simp only [h0, if_pos]
  · intro h0
    unfold centroid_and_quadrant
    simp only [h0, if_neg, ite_false]
  · unfold centroid_and_quadrant
    simp only [half_lt_iff_nat]

/-- Witness for `centroid_and_quadrant_spec`: an empty 4x2 mask falls back to
the geometric centre and is labelled lower-outer. -/
theorem centroid_and_quadrant_spec_witness :
    (centroid_and_quadrant [[0, 0], [0, 0], [0, 0], [0, 0]]).2 = (1, 2) ∧
    (centroid_and_quadrant [[0, 0], [0, 0], [0, 0], [0, 0]]).1 = "lower-outer quadrant" := by
  have h := centroid_and_quadrant_spec [[0, 0], [0, 0], [0, 0], [0, 0]]
  constructor
  · rw [h.1 (by decide)]
    decide
  · rw [h.2.2, h.1 (by decide)]
    decide

/-! ### Suspicion index (analyser.py lines 127-130, 193-198)

`cv2.Laplacian(mask, cv2.CV_64F)` with the default aperture applies the
3x3 kernel `[[0,1,0],[1,-4,1],[0,1,0]]` with `BORDER_REFLECT_101`
border replication; `.var()` is the population variance over all pixels. -/

/-- OpenCV `BORDER_REFLECT_101` index reflection for offsets of at most one
(degenerate single-pixel axes clamp to 0). -/
def border_reflect_101 (n : ℕ) (i : ℤ) : ℕ :=
  if n ≤ 1 then 0
  else if i < 0 then (-i).toNat
  else if (n : ℤ) ≤ i then (2 * ((n : ℤ) - 1) - i).toNat
  else i.toNat

/-- Value of the Laplacian of `m` at pixel `(y, x)`. -/
def lap_at (m : Mask) (y x : ℕ) : ℤ :=
  let v : ℤ → ℤ → ℤ := fun yy xx =>
    (gridGet m (border_reflect_101 (gridRows m) yy) (border_reflect_101 (gridCols m) xx) : ℤ)
  v ((y : ℤ) - 1) (x : ℤ) + v ((y : ℤ) + 1) (x : ℤ) +
    v (y : ℤ) ((x : ℤ) - 1) + v (y : ℤ) ((x : ℤ) + 1) - 4 * v (y : ℤ) (x : ℤ)

/-- All Laplacian values of `m`, in row-major order. -/
def lap_values (m : Mask) : List ℤ :=
  (List.range (gridRows m)).bind
    (fun y => (List.range (gridCols m)).map (fun x => lap_at m y x))

/-- numpy `.mean()` (0 on an empty buffer). -/
def q_mean (l : List ℚ) : ℚ := if l.length = 0 then 0 else l.sum / (l.length : ℚ)

/-- numpy `.var()`: population variance (mean of squared deviations). -/
def q_var (l : List ℚ) : ℚ := q_mean (l.map (fun v => (v - q_mean l) ^ 2))

/-- `cv2.Laplacian(mask, cv2.CV_64F).var()`. -/
def laplacian_var (m : Mask) : ℚ := q_var ((lap_values m).map (fun z => (z : ℚ)))

/-- analyser.py `suspicion_index` (lines 127-130). -/
def suspicion_index (mask : Mask) (ratio_percent : ℚ) : ℚ :=
  np_clip (6/10 * ratio_percent + 4/1000 * laplacian_var mask) 0 100

/-- The metric values computed by one `analyze_image` run. -/
structure Metrics where
  ratio : ℚ
  density : String
  susp : ℚ
  region : String
deriving Repr, DecidableEq

/-- The pure metric computations of `analyze_image` (analyser.py lines
193-198), with the connected-component labelling of the cleaned mask passed
in as data. -/
def analyze_metrics (mask : Mask) (cc : CCData) : Metrics :=
  let mask_main := if 0 < countNonzero mask then largest_component mask cc else mask
  let ratio := ratio_percent_from_mask mask
  let dens := density_class_from_ratio ratio
  let susp := suspicion_index mask_main ratio
  let region :=
    (centroid_and_quadrant (if countNonzero mask_main ≠ 0 then mask_main else mask)).1
  ⟨ratio, dens, susp, region⟩

/-- C7: the suspicion index equals
`clamp(0.6 * ratio_percent + 0.004 * variance_of_Laplacian(mask), 0, 100)`,
always lies in [0, 100], and in `analyze_image` it is computed from the
dominant (largest-component) mask, not from the full cleaned mask, while the
ratio is computed from the full mask. -/
theorem suspicion_index_spec (m mask : Mask) (r : ℚ) (cc : CCData) :
    (0 ≤ suspicion_index m r ∧ suspicion_index m r ≤ 100) ∧
    suspicion_index m r = np_clip (6/10 * r + 4/1000 * laplacian_var m) 0 100 ∧
    (analyze_metrics mask cc).susp =
      suspicion_index (if 0 < countNonzero mask then largest_component mask cc else mask)
        (ratio_percent_from_mask mask) := by
  refine ⟨?_, rfl, rfl⟩
  exact np_clip_bounds _ 0 100 (by norm_num)

/-! ### Path and string helpers (tools.py, Python semantics)

Embeddings of the Python path functions actually used by the code:
`os.path.basename` (POSIX separator), `os.path.splitext`,
`pathlib.Path.suffix`, `pathlib.Path.stem` and `str.strip`. -/

/-- Characters after the last slash of a POSIX path. -/
def afterLastSlash (cs : List Char) : List Char :=
  cs.foldl (fun acc c => if c = '/' then [] else acc ++ [c]) []

/-- `os.path.basename` / `Path(...).name` for POSIX paths. -/
def pyBasename (s : String) : String := String.mk (afterLastSlash s.toList)

/-- Python `str.lower()` (ASCII case folding, which covers the extensions
the code compares). -/
def strLower (s : String) : String := String.mk (s.toList.map Char.toLower)

/-- Index of the last dot in a character list, if any. -/
def lastDotIdx : List Char → Option ℕ
  | [] => none
  | c :: cs =>
    match lastDotIdx cs with
    | some i => some (i + 1)
    | none => if c = '.' then some 0 else none

/-- `os.path.splitext(name)[0]` on a bare file name: everything before the
last dot, unless every character before that dot is itself a dot. -/
def os_splitext_root (name : String) : String :=
  match lastDotIdx name.toList with
  | none => name
  | some i =>
    if (name.toList.take i).all (fun c => c = '.') then name
    else String.mk (name.toList.take i)

/-- `os.path.splitext(name)[1]` on a bare file name. -/
def os_splitext_ext (name : String) : String :=
  match lastDotIdx name.toList with
  | none => ""
  | some i =>
    if (name.toList.take i).all (fun c => c = '.') then ""
    else String.mk (name.toList.drop i)

/-- `pathlib.Path(p).suffix`: the extension of the final component,
empty when the dot is leading or trailing. -/
def path_suffix (p : String) : String :=
  let name := pyBasename p
  match lastDotIdx name.toList with
  | none => ""
  | some i =>
    if 0 < i ∧ i < name.toList.length - 1 then String.mk (name.toList.drop i)
    else ""

/-- `pathlib.Path(p).stem`: the final component without its suffix. -/
def path_stem (p : String) : String :=
  let name := pyBasename p
  String.mk (name.toList.take (name.toList.length - (path_suffix p).toList.length))

/-- Python `str.strip()`: remove leading and trailing whitespace. -/
def py_strip (s : String) : String :=
  String.mk (((s.data.dropWhile Char.isWhitespace).reverse.dropWhile Char.isWhitespace).reverse)

/-! ### Input selection (analyser.py lines 234-237, tools.py lines 27-35) -/

/-- analyser.py `get_images` extension tuple (line 235). -/
def get_images_valid_ext : List String := [".png", ".jpg", ".jpeg", ".dcm"]

/-- Whether `get_images` selects a file of this name:
`f.suffix.lower() in valid_ext` (line 236). -/
def get_images_accepts (f : String) : Bool :=
  decide (strLower (path_suffix f) ∈ get_images_valid_ext)

/-- tools.py `list_input_files` extension set (line 29). -/
def list_input_files_exts : List String := [".dcm", ".dicom", ".png", ".jpg", ".jpeg"]

/-- Whether `list_input_files` selects a file of this name:
`os.path.splitext(f.lower())[1] in exts` (line 33). -/
def list_input_files_accepts (f : String) : Bool :=
  decide (os_splitext_ext (strLower f) ∈ list_input_files_exts)

/-- C9 counterexample: `.bmp` (claimed accepted) is selected by neither file
lister, and `list_input_files` selects `.dicom`, which is outside the
claimed extension set. -/
theorem accepted_extensions_cex :
    get_images_accepts "scan.bmp" = false ∧
    list_input_files_accepts "scan.bmp" = false ∧
    get_images_accepts "scan.tif" = false ∧
    get_images_accepts "scan.tiff" = false ∧
    list_input_files_accepts "scan.dicom" = true := by
  decide

/-- C9 (amended): `get_images` selects exactly the files whose lower-cased
`Path.suffix` is one of `.png .jpg .jpeg .dcm`, and `list_input_files`
selects exactly those whose lower-cased `os.path.splitext` extension is one
of `.dcm .dicom .png .jpg .jpeg`; both match case-insensitively, and
`.bmp`, `.tif`, `.tiff` are not accepted. -/
theorem accepted_extensions_spec (f : String) :
    (get_images_accepts f = true ↔ strLower (path_suffix f) ∈ get_images_valid_ext) ∧
    (list_input_files_accepts f = true ↔ os_splitext_ext (strLower f) ∈ list_input_files_exts) ∧
    (get_images_accepts "a.PNG" = true ∧ get_images_accepts "a.Jpeg" = true ∧
     list_input_files_accepts "a.DCM" = true ∧ get_images_accepts "a.bmp" = false) := by
  refine ⟨decide_eq_true_iff, decide_eq_true_iff, by decide⟩


/-! ### Report writing (analyser.py lines 205-214, tools.py lines 82-91) -/

/-- Python `f"{v:.1f}"` for the nonnegative values formatted here. -/
def fmt1 (q : ℚ) : String :=
  let n := round_half_even (q * 10)
  if n < 0 then "-" ++ toString ((-n) / 10) ++ "." ++ toString ((-n) % 10)
  else toString (n / 10) ++ "." ++ toString (n % 10)

/-- The technical report text built in `analyze_image` (lines 206-213). -/
def tech_report (fileName : String) (ratio : ℚ) (dens : String) (susp : ℚ)
    (region : String) : String :=
  "File: " ++ fileName ++ "\n" ++
  "Suspicious area ratio: " ++ fmt1 ratio ++ "%\n" ++
  "Density class: " ++ dens ++ "\n" ++
  "Suspicion index (0–100): " ++ fmt1 susp ++ "\n" ++
  "Region (centroid-based): " ++ region ++ "\n" ++
  "Disclaimer: Automatic analysis for research only.\n"

/-- tools.py `save_report` (lines 82-91): returns the output path and the
file contents written (`report_text.strip() + "\n"`, UTF-8). -/
def save_report (filename_stem : String) (report_text : String) : String × String :=
  (REPORTS_DIR ++ "/report_" ++ os_splitext_root (pyBasename filename_stem) ++ ".txt",
   py_strip report_text ++ "\n")

/-- Split a character list at newline characters. -/
def splitLinesAux : List Char → List (List Char)
  | [] => [[]]
  | c :: rest =>
    match splitLinesAux rest with
    | [] => [[]]
    | l :: ls => if c = '\n' then [] :: l :: ls else (c :: l) :: ls

/-- The lines of a report body that ends in a newline. -/
def report_lines (contents : String) : List (List Char) :=
  (splitLinesAux contents.toList).dropLast

lemma strip_roundtrip_chars (mid : List Char) :
    ((('F' :: (mid ++ ['.', '\n'])).dropWhile Char.isWhitespace).reverse.dropWhile
        Char.isWhitespace).reverse = 'F' :: (mid ++ ['.']) := by
  rw [List.dropWhile_cons_of_neg (by decide)]
  rw [show ('F' :: (mid ++ ['.', '\n'])).reverse
      = '\n' :: ('.' :: (mid.reverse ++ ['F'])) from by simp]
  rw [List.dropWhile_cons_of_pos (by decide)]
  rw [List.dropWhile_cons_of_neg (by decide)]
  simp

lemma tech_report_data (f dens region : String) (r si : ℚ) :
    (tech_report f r dens si region).data =
      'F' :: (("ile: ".data ++ f.data ++ "\nSuspicious area ratio: ".data ++ (fmt1 r).data ++
        "%\nDensity class: ".data ++ dens.data ++ "\nSuspicion index (0–100): ".data ++
        (fmt1 si).data ++ "\nRegion (centroid-based): ".data ++ region.data ++
        "\nDisclaimer: Automatic analysis for research only".data) ++ ['.', '\n']) := by
  unfold tech_report
  simp only [String.data_append]
  simp

lemma py_strip_data (s : String) :
    (py_strip s).data =
      ((s.data.dropWhile Char.isWhitespace).reverse.dropWhile Char.isWhitespace).reverse := rfl

lemma py_strip_tech_report (f dens region : String) (r si : ℚ) :
    py_strip (tech_report f r dens si region) ++ "\n" = tech_report f r dens si region := by
  apply String.ext
  have h := tech_report_data f dens region r si
  rw [String.data_append, py_strip_data, h, strip_roundtrip_chars]
  have hnl : "\n".data = ['\n'] := rfl
  rw [hnl]
  simp

lemma fmt1_three_halves : fmt1 (3/2) = "1.5" := by
  have h : round_half_even ((3:ℚ)/2 * 10) = 15 := by
    unfold round_half_even
    norm_num
  unfold fmt1
  rw [h]
  decide

lemma fmt1_five_halves : fmt1 (5/2) = "2.5" := by
  have h : round_half_even ((5:ℚ)/2 * 10) = 25 := by
    unfold round_half_even
    norm_num
  unfold fmt1
  rw [h]
  decide

set_option maxRecDepth 4000 in
/-- C10 counterexample: the report body written for a successful analysis has
six lines, not five. -/
theorem report_template_cex :
    (report_lines (save_report "scan.png"
        (tech_report "scan.png" (3/2) "A – Almost entirely fatty" (5/2)
          "lower-outer quadrant")).2).length ≠ 5 ∧
    (report_lines (save_report "scan.png"
        (tech_report "scan.png" (3/2) "A – Almost entirely fatty" (5/2)
          "lower-outer quadrant")).2).length = 6 := by
  have h : tech_report "scan.png" (3/2) "A – Almost entirely fatty" (5/2)
      "lower-outer quadrant" =
      "File: scan.png\nSuspicious area ratio: 1.5%\nDensity class: A – Almost entirely fatty\nSuspicion index (0–100): 2.5\nRegion (centroid-based): lower-outer quadrant\nDisclaimer: Automatic analysis for research only.\n" := by
    unfold tech_report
    rw [fmt1_three_halves, fmt1_five_halves]
    decide
  unfold save_report
  rw [h]
  decide

/-- C10 (amended): the report is written to
`<reports_dir>/report_<source_stem>.txt` with a trailing newline, and its
body is the fixed six-line template in this order: file-name line, ratio
line, density-class line, suspicion-index line, region line, disclaimer
line. -/
theorem save_report_template_spec (f dens region : String) (r si : ℚ) :
    (save_report f (tech_report f r dens si region)).1 =
      REPORTS_DIR ++ "/report_" ++ os_splitext_root (pyBasename f) ++ ".txt" ∧
    (save_report f (tech_report f r dens si region)).2 =
      "File: " ++ f ++ "\n" ++
      "Suspicious area ratio: " ++ fmt1 r ++ "%\n" ++
      "Density class: " ++ dens ++ "\n" ++
      "Suspicion index (0–100): " ++ fmt1 si ++ "\n" ++
      "Region (centroid-based): " ++ region ++ "\n" ++
      "Disclaimer: Automatic analysis for research only.\n" ∧
    (∃ body, (save_report f (tech_report f r dens si region)).2 = body ++ "\n") := by
  refine ⟨rfl, ?_, ⟨py_strip (tech_report f r dens si region), rfl⟩⟩
  exact py_strip_tech_report f dens region r si

/-! ### analyze_image: writes and last-analysis state (analyser.py 189-228)

The pure metric computations are `analyze_metrics`; the file effects are
modelled by their actual Python failure modes:
- the creation of the annotated-output directory (`ensure_dir` at line 202)
  raises `OSError` on failure — an `Except` value;
- `cv2.imwrite` at line 203 signals failure for a writable-format path by
  RETURNING `False`, and line 203 discards that return value — a `Bool`
  flag that the translated code consumes nowhere;
- the report write (`ensure_dir(REPORTS_DIR)` at line 205 and the
  `open`/`write` inside `save_report` at line 214) raises on failure — an
  `Except` value.
`analyze_image` updates the module-level `_last_analysis` dictionary
(lines 217-226) on every path where no exception was raised — in
particular also when the annotated-image write reported failure through
its discarded return flag — and returns
`(ratio, region_desc, out_img_path, report_path)`. -/

/-- tools.py `annotated_path` (lines 70-76): `annotated_<stem>.jpg`. -/
def annotated_path (filename_stem : String) : String :=
  ANNOTATED_DIR ++ "/annotated_" ++ path_stem filename_stem ++ ".jpg"

/-- The module-level `_last_analysis` dictionary (analyser.py lines 38-46). -/
structure LastAnalysis where
  file : Option String
  ratio : Option ℚ
  region : Option String
  density : Option String
  susp_index : Option ℚ
  annot_path : Option String
  report_path : Option String
deriving Repr, DecidableEq

/-- `_last_analysis` at module load: every field `None`. -/
def initial_last_analysis : LastAnalysis :=
  ⟨none, none, none, none, none, none, none⟩

/-- The `_last_analysis` contents after a successful `analyze_image` run
(lines 217-226). -/
def last_analysis_after (p : String) (mask : Mask) (cc : CCData) : LastAnalysis :=
  { file := some p
    ratio := some (analyze_metrics mask cc).ratio
    region := some (analyze_metrics mask cc).region
    density := some (analyze_metrics mask cc).density
    susp_index := some (analyze_metrics mask cc).susp
    annot_path := some (annotated_path p)
    report_path := some (save_report (pyBasename p)
      (tech_report (pyBasename p) (analyze_metrics mask cc).ratio
        (analyze_metrics mask cc).density (analyze_metrics mask cc).susp
        (analyze_metrics mask cc).region)).1 }

/-- The `(ratio, region_desc, out_img_path, report_path)` tuple returned by
a successful `analyze_image` run (line 228). -/
def analyze_result_tuple (p : String) (mask : Mask) (cc : CCData) :
    ℚ × String × String × String :=
  ((analyze_metrics mask cc).ratio, (analyze_metrics mask cc).region,
   annotated_path p,
   (save_report (pyBasename p)
      (tech_report (pyBasename p) (analyze_metrics mask cc).ratio
        (analyze_metrics mask cc).density (analyze_metrics mask cc).susp
        (analyze_metrics mask cc).region)).1)

/-- analyser.py `analyze_image` (lines 189-228) from the point where the
mask has been computed: create the annotated directory (raises on failure),
call `cv2.imwrite` and DISCARD its boolean success flag (line 203 ignores
the return value, and `cv2.imwrite` does not raise for a failed write to a
valid `.jpg` path), then write the report (raises on failure), then update
`_last_analysis`. A raised exception propagates and leaves the state
untouched; the imwrite flag influences nothing. -/
def analyze_image_fx (annotDirFx : Except String Unit) (imwriteOk : Bool)
    (reportFx : Except String Unit) (p : String) (mask : Mask) (cc : CCData)
    (st : LastAnalysis) :
    Except String (ℚ × String × String × String) × LastAnalysis :=
  match annotDirFx with
  | .error e => (.error e, st)
  | .ok _ =>
    let _discarded := imwriteOk
    match reportFx with
    | .error e => (.error e, st)
    | .ok _ => (.ok (analyze_result_tuple p mask cc), last_analysis_after p mask cc)

/-- C3 counterexample: with the annotated-image write FAILING (imwrite flag
`false`) but the directory creation and the report write succeeding,
`analyze_image` still returns the success tuple and still updates
`_last_analysis` (its `file` field goes from `None` to the analysed path):
the failure is silently swallowed, refuting the claim that a write failure
during annotated-image saving is propagated and blocks the state update. -/
theorem analyze_image_imwrite_swallow_cex :
    (analyze_image_fx (.ok ()) false (.ok ()) "scan.png" [[0]]
        (CCData.mk 1 [[0]] []) initial_last_analysis).1 =
      .ok (analyze_result_tuple "scan.png" [[0]] (CCData.mk 1 [[0]] [])) ∧
    (analyze_image_fx (.ok ()) false (.ok ()) "scan.png" [[0]]
        (CCData.mk 1 [[0]] []) initial_last_analysis).2.file = some "scan.png" ∧
    initial_last_analysis.file = none := by
  exact ⟨rfl, rfl, rfl⟩

/-- C3 (amended): exceptions raised while creating the annotated-output
directory or while writing the report propagate to the caller with
`_last_analysis` left unchanged, and the state is updated exactly when no
exception is raised; but the annotated-image write itself signals failure
through a boolean return value that line 203 discards, so its failure is
silently swallowed: the result and the state update are identical whether
that write succeeded or not. -/
theorem analyze_image_fx_state (d : Except String Unit) (imwriteOk : Bool)
    (w : Except String Unit) (p : String) (mask : Mask) (cc : CCData)
    (st : LastAnalysis) :
    (∀ e, d = .error e →
      analyze_image_fx d imwriteOk w p mask cc st = (.error e, st)) ∧
    (∀ e, d = .ok () → w = .error e →
      analyze_image_fx d imwriteOk w p mask cc st = (.error e, st)) ∧
    (d = .ok () → w = .ok () →
      analyze_image_fx d imwriteOk w p mask cc st =
        (.ok (analyze_result_tuple p mask cc), last_analysis_after p mask cc)) ∧
    analyze_image_fx d true w p mask cc st =
      analyze_image_fx d false w p mask cc st ∧
    ((analyze_image_fx d imwriteOk w p mask cc st).2 ≠ st →
      d = .ok () ∧ w = .ok ()) := by
  refine ⟨?_, ?_, ?_, ?_, ?_⟩
  · intro e he
    rw [he]
    rfl
  · intro e h1 h2
    rw [h1, h2]
    rfl
  · intro h1 h2
    rw [h1, h2]
    rfl
  · cases d with
    | error e => rfl
    | ok u =>
      cases u
      rfl
  · intro hne
    cases d with
    | error e =>
      exact absurd rfl (by
        rw [show analyze_image_fx (.error e) imwriteOk w p mask cc st
          = (.error e, st) from rfl] at hne
        exact hne)
    | ok u =>
      cases w with
      | error e =>
        cases u
        exact absurd rfl (by
          rw [show analyze_image_fx (.ok ()) imwriteOk (.error e) p mask cc st
            = (.error e, st) from rfl] at hne
          exact hne)
      | ok v =>
        cases u
        cases v
        exact ⟨rfl, rfl⟩

/-- Witness for `analyze_image_fx_state`: a failing report write on a
concrete input leaves the state at its initial value, and a run whose only
failure is the discarded imwrite flag still updates it. -/
theorem analyze_image_fx_state_witness :
    analyze_image_fx (.ok ()) true (.error "disk full") "scan.png" [[0]]
        (CCData.mk 1 [[0]] []) initial_last_analysis =
      (.error "disk full", initial_last_analysis) ∧
    (analyze_image_fx (.ok ()) false (.ok ()) "scan.png" [[0]]
        (CCData.mk 1 [[0]] []) initial_last_analysis).2 =
      last_analysis_after "scan.png" [[0]] (CCData.mk 1 [[0]] []) := by
  constructor
  · exact (analyze_image_fx_state (.ok ()) true (.error "disk full") "scan.png"
      [[0]] (CCData.mk 1 [[0]] []) initial_last_analysis).2.1 "disk full" rfl rfl
  · rw [(analyze_image_fx_state (.ok ()) false (.ok ()) "scan.png" [[0]]
      (CCData.mk 1 [[0]] []) initial_last_analysis).2.2.1 rfl rfl]

/-! ### Loader (tools.py lines 41-62)

`pydicom.dcmread` and `cv2.imread` are external decoders; their outcomes are
passed in: `dicomPixels` is the DICOM pixel array (or the parse exception),
`imread` is the decoded colour buffer (`none` when `cv2.imread` returns
`None`). The windowed rescale of lines 51-55 is translated per pixel: after
subtracting the observed minimum (exact on the actual values, where the
minimum is a lower bound), divide by the maximum of the shifted values when
positive, multiply by 255, clip to [0, 255] and truncate to an unsigned
byte. A zero-pixel DICOM array makes `arr.min()` raise, which propagates. -/

/-- One pixel of the rescale `(arr / arr.max() * 255).clip(0, 255).astype(uint8)`
(applied to the already min-shifted value). -/
def rescale_byte (mx v : ℕ) : ℕ :=
  Int.toNat ⌊np_clip ((if 0 < mx then (v : ℚ) / (mx : ℚ) else (v : ℚ)) * 255) 0 255⌋

/-- tools.py lines 51-55: min-shift, conditional max-normalise, byte cast. -/
def dicom_to_gray (arr : Mask) : Mask :=
  let mn := npMinNat (flatMask arr)
  let mx := npMaxNat (flatMask (arr.map (List.map (fun v => v - mn))))
  arr.map (List.map (fun v => rescale_byte mx (v - mn)))

/-- tools.py line 56 `cv2.cvtColor(arr, cv2.COLOR_GRAY2BGR)`: replicate the
single channel. -/
def gray_to_bgr (g : Mask) : BGR := g.map (List.map (fun v => (v, v, v)))

/-- Whether the loader takes the DICOM branch (line 49). -/
def isDicomPath (p : String) : Prop :=
  os_splitext_ext (strLower p) = ".dcm" ∨ os_splitext_ext (strLower p) = ".dicom"

instance (p : String) : Decidable (isDicomPath p) := by
  unfold isDicomPath
  infer_instance

/-- tools.py `load_image_any` (lines 41-62). -/
def load_image_any (p : String) (dicomPixels : Except String Mask)
    (imread : Option BGR) : Except String BGR :=
  if isDicomPath p then
    match dicomPixels with
    | .error e => .error e
    | .ok arr =>
      if flatMask arr = [] then
        .error "zero-size array to reduction operation minimum which has no identity"
      else .ok (gray_to_bgr (dicom_to_gray arr))
  else
    match imread with
    | none => .error ("Cannot read image: " ++ p)
    | some bgr => .ok bgr

/-- Pixel access in a 3-channel buffer. -/
def bgrGet (b : BGR) (y x : ℕ) : ℕ × ℕ × ℕ := (b.getD y []).getD x (0, 0, 0)

lemma rescale_byte_zero (mx : ℕ) : rescale_byte mx 0 = 0 := by
  unfold rescale_byte np_clip
  split
  · norm_num
  · norm_num

lemma rescale_byte_le (mx v : ℕ) : rescale_byte mx v ≤ 255 := by
  unfold rescale_byte
  have h := (np_clip_bounds ((if 0 < mx then (v : ℚ) / (mx : ℚ) else (v : ℚ)) * 255) 0 255
    (by norm_num)).2
  have hfloor : ⌊np_clip ((if 0 < mx then (v : ℚ) / (mx : ℚ) else (v : ℚ)) * 255) 0 255⌋
      ≤ (255 : ℤ) := by
    have := Int.floor_le_floor h
    simpa using this
  rw [show (255 : ℕ) = Int.toNat 255 from rfl]
  exact Int.toNat_le_toNat hfloor

lemma rescale_byte_self (mx : ℕ) (h : 0 < mx) : rescale_byte mx mx = 255 := by
  unfold rescale_byte
  rw [if_pos h]
  have hmx : (mx : ℚ) ≠ 0 := by
    exact_mod_cast Nat.pos_iff_ne_zero.mp h
  rw [div_self hmx, one_mul]
  unfold np_clip
  norm_num
  decide

lemma flatMask_mapmap (g : Mask) (f : ℕ → ℕ) :
    flatMask (g.map (List.map f)) = (flatMask g).map f := by
  unfold flatMask
  rw [List.map_join]

lemma npMaxNat_map_sub (l : List ℕ) (c : ℕ) :
    npMaxNat (l.map (fun v => v - c)) = npMaxNat l - c := by
  induction l with
  | nil => simp [npMaxNat]
  | cons a t ih =>
    unfold npMaxNat at ih ⊢
    simp only [List.map_cons, List.foldr_cons]
    rw [ih]
    omega

lemma bgrGet_gray_to_bgr (g : Mask) (y x : ℕ) :
    bgrGet (gray_to_bgr g) y x = (gridGet g y x, gridGet g y x, gridGet g y x) := by
  unfold bgrGet gray_to_bgr gridGet
  simp only [List.getD_eq_getElem?_getD, List.getElem?_map]
  cases hrow : g[y]? with
  | none => simp
  | some row =>
    simp only [Option.map_some', Option.getD_some, List.getElem?_map]
    cases hv : row[x]? with
    | none => simp
    | some v => simp

lemma row_length_mapmap (g : Mask) (f : ℕ → ℕ) (y : ℕ) :
    ((g.map (List.map f)).getD y []).length = (g.getD y []).length := by
  simp only [List.getD_eq_getElem?_getD, List.getElem?_map]
  cases hrow : g[y]? with
  | none => simp
  | some row => simp

/-- C8 (amended): decode failures (DICOM parse error, unreadable raster
file, zero readable pixels) propagate as errors with no fallback image; a
successfully decoded raster file is returned as decoded; a successfully
decoded DICOM is returned at its native resolution as three replicated
8-bit channels, rescaled so that pixels holding the observed minimum map to
0 and — provided the image is not constant (min < max) — pixels holding the
observed maximum map to 255. (For a constant image the code maps every
pixel to 0, so the maximum does not map to 255 there.) -/
theorem load_image_any_spec (p : String) (arr : Mask) (bgrOpt : Option BGR)
    (b : BGR) (e : String) :
    (isDicomPath p → load_image_any p (.error e) bgrOpt = .error e) ∧
    (isDicomPath p → flatMask arr = [] →
      ∃ msg, load_image_any p (.ok arr) bgrOpt = .error msg) ∧
    (¬ isDicomPath p → load_image_any p (.error e) none =
      .error ("Cannot read image: " ++ p)) ∧
    (¬ isDicomPath p → load_image_any p (.error e) (some b) = .ok b) ∧
    (isDicomPath p → flatMask arr ≠ [] →
      load_image_any p (.ok arr) bgrOpt = .ok (gray_to_bgr (dicom_to_gray arr)) ∧
      (dicom_to_gray arr).length = arr.length ∧
      (∀ y, ((dicom_to_gray arr).getD y []).length = (arr.getD y []).length) ∧
      (∀ y x, bgrGet (gray_to_bgr (dicom_to_gray arr)) y x =
        (gridGet (dicom_to_gray arr) y x, gridGet (dicom_to_gray arr) y x,
         gridGet (dicom_to_gray arr) y x)) ∧
      (∀ y x, gridGet (dicom_to_gray arr) y x ≤ 255) ∧
      (∀ y x, gridGet arr y x = npMinNat (flatMask arr) →
        gridGet (dicom_to_gray arr) y x = 0) ∧
      (∀ y x, gridGet arr y x = npMaxNat (flatMask arr) →
        npMinNat (flatMask arr) < npMaxNat (flatMask arr) →
        gridGet (dicom_to_gray arr) y x = 255)) := by
  have hdg : dicom_to_gray arr =
      arr.map (List.map (fun v => rescale_byte
        (npMaxNat (flatMask (arr.map (List.map (fun v => v - npMinNat (flatMask arr))))))
        (v - npMinNat (flatMask arr)))) := rfl
  have hmx : npMaxNat (flatMask (arr.map (List.map
      (fun v => v - npMinNat (flatMask arr)))))
      = npMaxNat (flatMask arr) - npMinNat (flatMask arr) := by
    rw [flatMask_mapmap, npMaxNat_map_sub]
  have hf0 : rescale_byte
      (npMaxNat (flatMask (arr.map (List.map (fun v => v - npMinNat (flatMask arr))))))
      (0 - npMinNat (flatMask arr)) = 0 := by
    rw [Nat.zero_sub]
    exact rescale_byte_zero _
  refine ⟨?_, ?_, ?_, ?_, ?_⟩
  · intro hdic
    unfold load_image_any
    rw [if_pos hdic]
  · intro hdic hnil
    unfold load_image_any
    rw [if_pos hdic]
    exact ⟨_, by dsimp only; rw [if_pos hnil]⟩
  · intro hdic
    unfold load_image_any
    rw [if_neg hdic]
  · intro hdic
    unfold load_image_any
    rw [if_neg hdic]
  · intro hdic hne
    refine ⟨?_, ?_, ?_, ?_, ?_, ?_, ?_⟩
    · unfold load_image_any
      rw [if_pos hdic]
      dsimp only
      rw [if_neg hne]
    · rw [hdg, List.length_map]
    · intro y
      rw [hdg, row_length_mapmap]
    · intro y x
      exact bgrGet_gray_to_bgr _ y x
    · intro y x
      rw [hdg, gridGet_mapmap _ _ hf0]
      exact rescale_byte_le _ _
    · intro y x hvmin
      rw [hdg, gridGet_mapmap _ _ hf0, hvmin, Nat.sub_self]
      exact rescale_byte_zero _
    · intro y x hvmax hlt
      rw [hdg, gridGet_mapmap _ _ hf0, hvmax, hmx]
      exact rescale_byte_self _ (by omega)

/-- Witness for `load_image_any_spec` on a concrete two-pixel DICOM. -/
theorem load_image_any_spec_witness :
    load_image_any "a.dcm" (.ok [[3, 7]]) none =
      .ok (gray_to_bgr (dicom_to_gray [[3, 7]])) ∧
    gridGet (dicom_to_gray [[3, 7]]) 0 0 = 0 ∧
    gridGet (dicom_to_gray [[3, 7]]) 0 1 = 255 := by
  have h := (load_image_any_spec "a.dcm" [[3, 7]] none [] "x").2.2.2.2
    (by decide) (by decide)
  exact ⟨h.1, h.2.2.2.2.2.1 0 0 (by decide), h.2.2.2.2.2.2 0 1 (by decide) (by decide)⟩

/-- C8 counterexample: a constant-valued DICOM image (single pixel of value
5, which is both the observed minimum and the observed maximum) decodes to
an all-zero image, so the pixel holding the observed maximum maps to 0, not
255 as the claim requires of every successfully decoded file. -/
theorem load_constant_dicom_cex :
    load_image_any "scan.dcm" (.ok [[5]]) none = .ok [[(0, 0, 0)]] ∧
    gridGet [[5]] 0 0 = npMaxNat (flatMask [[5]]) ∧
    bgrGet [[(0, 0, 0)]] 0 0 ≠ (255, 255, 255) := by
  refine ⟨?_, by decide, by decide⟩
  unfold load_image_any
  rw [if_pos (by decide)]
  dsimp only
  rw [if_neg (by decide)]
  have h : dicom_to_gray [[5]] = [[0]] := by
    calc dicom_to_gray [[5]] = [[rescale_byte 0 0]] := rfl
    _ = [[0]] := by rw [rescale_byte_zero]
  rw [h]
  rfl

/-- Witness for `accepted_extensions_spec` at a concrete accepted name. -/
theorem accepted_extensions_spec_witness :
    get_images_accepts "b.dcm" = true :=
  (accepted_extensions_spec "b.dcm").1.mpr (by decide)
